import Mathlib

/-!
Shallow embedding of the ecs-task-protection Go module (package ecstp).

The repository contains two versions of the same library:
  * v1 (src/protection.go + its tests): a package-level, imperative entry
    point `UpdateTaskProtection(input) error` that always resolves identity
    via `GetTaskArn()` (resty-based, no context) and interprets the remote
    result, returning an error when enabling protection failed.
  * v2 (src/unnamed/part_003 + its tests): a `Client` value with a
    `MetadataEndpointOverride`, whose `GetTaskArn(ctx)` uses
    `http.NewRequestWithContext`, and whose `UpdateTaskProtection(ctx, input)`
    returns the raw `ecs.UpdateTaskProtectionOutput` unchanged.

External collaborators (the HTTP transport, the environment, the AWS ECS
client) are modelled as oracles carried in a `World` / in the input, and the
network side effects are recorded in an explicit event trace.  Go runtime
panics (nil-pointer dereferences) are modelled by the `panicked` constructor
of `Outcome`.  Go byte strings holding JSON are abstracted into their parse
outcome: `Option Json`, where `none` stands for bytes that are not valid
JSON.  Go `error` values are modelled by their message string.
-/

namespace Ecstp

/-- Go `error` values, modelled by their `Error()` message. -/
abbrev GoError := String

/-- An opaque cancellation token standing for a Go `context.Context`.
Only its identity matters: the claims are about which context a network
operation is issued under. -/
abbrev Ctx := Nat

/-- Parsed JSON documents (the abstraction of the bytes handed to
`json.Unmarshal`). -/
inductive Json where
  | null : Json
  | bool (b : Bool) : Json
  | num (n : Int) : Json
  | str (s : String) : Json
  | arr (elems : List Json) : Json
  | obj (fields : List (String × Json)) : Json

/-- The message of a Go nil-pointer-dereference runtime panic. -/
def nilDerefMsg : String :=
  "runtime error: invalid memory address or nil pointer dereference"

/-- Result of a Go function call that may also crash with a runtime panic
(nil-pointer dereference). -/
inductive Outcome (α : Type) where
  | ok (a : α) : Outcome α
  | err (e : GoError) : Outcome α
  | panicked (msg : String) : Outcome α
deriving DecidableEq

/-- Whether an `Outcome` is a returned (non-panic) error. -/
def Outcome.isErr {α : Type} : Outcome α → Bool
  | .err _ => true
  | _ => false

/-- `MetadataBody` (both versions): the JSON body returned from the metadata
task API, with fields `Cluster` and `TaskARN`. -/
structure MetadataBody where
  Cluster : String
  TaskARN : String
deriving DecidableEq

namespace ECS

/-- `ecs/types.Failure`: a per-task failure, with optional Arn and Reason
(Go `*string` fields are modelled as `Option String`). -/
structure Failure where
  Arn : Option String := none
  Reason : Option String := none
deriving DecidableEq

/-- `ecs/types.ProtectedTask`: a per-task success entry. -/
structure ProtectedTask where
  TaskArn : Option String := none
  ProtectionEnabled : Bool := false
deriving DecidableEq

/-- `ecs.UpdateTaskProtectionInput`: the request sent to the AWS ECS
`UpdateTaskProtection` API. `ExpiresInMinutes` is a Go `*int32`. -/
structure UpdateTaskProtectionInput where
  Cluster : Option String
  Tasks : List String
  ProtectionEnabled : Bool
  ExpiresInMinutes : Option Int
deriving DecidableEq

/-- `ecs.UpdateTaskProtectionOutput`: the raw remote result, an ordered list
of per-task successes and an ordered list of per-task failures. -/
structure UpdateTaskProtectionOutput where
  ProtectedTasks : List ProtectedTask := []
  Failures : List Failure := []
deriving DecidableEq

end ECS

/-- An AWS ECS client capability: the one remote state-change operation,
taking a context and a request and returning the raw output or an error. -/
abbrev ECSClient := Ctx → ECS.UpdateTaskProtectionInput →
  Except GoError ECS.UpdateTaskProtectionOutput

/-- Observable network side effects.  A metadata GET records the context the
HTTP request was built with (`none` when no caller-supplied context reaches
the request, as in the resty-based v1 `GetTaskArn`), and the remote ECS call
records the context and request it was invoked with. -/
inductive Event where
  | metadataGet (ctx : Option Ctx) (url : String) : Event
  | ecsUpdate (ctx : Ctx) (req : ECS.UpdateTaskProtectionInput) : Event
deriving DecidableEq

/-- An HTTP response: its status code and the outcome of reading its body.
`bodyBytes = .error e` stands for a body-read failure, `.ok none` for bytes
that are not valid JSON, and `.ok (some j)` for bytes parsing as `j`. -/
structure HttpResponse where
  statusCode : Nat
  bodyBytes : Except GoError (Option Json)

/-- The ambient world seen by the library: the
`ECS_CONTAINER_METADATA_URI_V4` environment variable and the HTTP transport.
The transport is invoked with the context the request was built with
(`none` meaning a request carrying no caller-supplied context) and the URL;
`.error` is a transport-level failure of the exchange itself. -/
structure World where
  env : Option String
  http : Option Ctx → String → Except GoError HttpResponse

/-- Go `json.Unmarshal` of a JSON value into a struct field of type
`string`: an absent key leaves the zero value `""`, a string value is
copied, and any other value type is a decode error. -/
def unmarshalStringField (fields : List (String × Json)) (key : String) :
    Except GoError String :=
  match ((fields.find? (fun p => p.1 = key)).map (fun p => p.2) : Option Json) with
  | none => .ok ""
  | some (.str s) => .ok s
  | some _ => .error ("json: cannot unmarshal value into Go struct field MetadataBody." ++ key)

/-- Go `json.Unmarshal(b, &metadata)` where `metadata : *MetadataBody`
(both versions declare `var metadata *MetadataBody`): invalid JSON is a
decode error, the JSON literal `null` sets the pointer to nil (`none`) with
no error, a JSON object allocates and fills the two fields, and any other
JSON value is a decode error. -/
def unmarshalPtrMetadataBody : Option Json → Except GoError (Option MetadataBody)
  | none => .error "invalid character in JSON body"
  | some .null => .ok none
  | some (.obj fields) => do
      let c ← unmarshalStringField fields "Cluster"
      let t ← unmarshalStringField fields "TaskARN"
      .ok (some { Cluster := c, TaskARN := t })
  | some _ => .error "json: cannot unmarshal value into Go value of type *ecstp.MetadataBody"

namespace V1

/-- `UpdateTaskProtectionInput` of src/protection.go: the bundled input of
the imperative entry point.  The ECS client is modelled as its one
capability; the context is the caller's cancellation signal. -/
structure UpdateTaskProtectionInput where
  Context : Ctx
  Client : ECSClient
  Protect : Bool
  ExpiresInMinutes : Option Int

/-- `GetTaskArn` of src/protection.go: reads `ECS_CONTAINER_METADATA_URI_V4`
(failing when unset), issues a resty GET to `<endpoint>/task` — the resty
request is built without any caller context, hence the `none` in the
recorded event and in the transport call — and unmarshals the body into a
`*MetadataBody`.  Returns the result paired with the trace of network
operations performed. -/
def GetTaskArn (w : World) :
    Except GoError (Option MetadataBody) × List Event :=
  match w.env with
  | none => (.error "unable to retrieve Task ARN - can't get Metadata URI", [])
  | some ecsMetadataEndpoint =>
    let url := ecsMetadataEndpoint ++ "/task"
    match w.http none url with
    | .error e => (.error e, [.metadataGet none url])
    | .ok res =>
      match res.bodyBytes with
      | .error e => (.error e, [.metadataGet none url])
      | .ok b =>
        match unmarshalPtrMetadataBody b with
        | .error e => (.error e, [.metadataGet none url])
        | .ok metadata => (.ok metadata, [.metadataGet none url])

/-- `UpdateTaskProtection` of src/protection.go (imperative mode): resolves
identity via `GetTaskArn`, calls the ECS `UpdateTaskProtection` API with
cluster/task taken from the metadata — dereferencing the metadata pointer,
which panics when it is nil — and interprets the result: when the failures
list is non-empty and `Protect` is set, it returns an error built from the
dereferenced `*failures[0].Reason` (panicking when that pointer is nil);
otherwise it returns no error. -/
def UpdateTaskProtection (w : World) (input : UpdateTaskProtectionInput) :
    Outcome Unit × List Event :=
  match GetTaskArn w with
  | (.error e, tr) => (.err e, tr)
  | (.ok none, tr) => (.panicked nilDerefMsg, tr)
  | (.ok (some metadata), tr) =>
    let req : ECS.UpdateTaskProtectionInput :=
      { Cluster := some metadata.Cluster
        Tasks := [metadata.TaskARN]
        ProtectionEnabled := input.Protect
        ExpiresInMinutes := input.ExpiresInMinutes }
    let tr := tr ++ [.ecsUpdate input.Context req]
    match input.Client input.Context req with
    | .error e => (.err e, tr)
    | .ok output =>
      match output.Failures, input.Protect with
      | failure :: _, true =>
        match failure.Reason with
        | none => (.panicked nilDerefMsg, tr)
        | some reason => (.err ("failed to protect task: " ++ reason), tr)
      | _, _ => (.ok (), tr)

end V1

/-- `Client` of src/unnamed/part_003: wraps an ECS client capability and an
optional metadata endpoint override. -/
structure Client where
  ecsClient : ECSClient
  MetadataEndpointOverride : String

/-- `UpdateTaskProtectionInput` of src/unnamed/part_003: optional metadata
(resolved via `GetTaskArn` when absent), the protection flag and the
optional expiry. -/
structure Client.UpdateTaskProtectionInput where
  Metadata : Option MetadataBody
  Protect : Bool
  ExpiresInMinutes : Option Int

/-- `Client.GetTaskArn` of src/unnamed/part_003: uses the endpoint override
when non-empty, else `ECS_CONTAINER_METADATA_URI_V4` (failing when neither
is available), issues a GET built with `http.NewRequestWithContext(ctx, ..)`
to `<endpoint>/task` — so the caller's context reaches the request — reads
the body and unmarshals it into a `*MetadataBody`.  Returns the result
paired with the trace of network operations performed. -/
def Client.GetTaskArn (w : World) (c : Client) (ctx : Ctx) :
    Except GoError (Option MetadataBody) × List Event :=
  let endpointResult : Except GoError String :=
    if c.MetadataEndpointOverride = "" then
      match w.env with
      | some v => .ok v
      | none => .error "unable to retrieve Task ARN - can't get Metadata URI"
    else
      .ok c.MetadataEndpointOverride
  match endpointResult with
  | .error e => (.error e, [])
  | .ok ecsMetadataEndpoint =>
    let url := ecsMetadataEndpoint ++ "/task"
    match w.http (some ctx) url with
    | .error e => (.error e, [.metadataGet (some ctx) url])
    | .ok res =>
      match res.bodyBytes with
      | .error e => (.error e, [.metadataGet (some ctx) url])
      | .ok b =>
        match unmarshalPtrMetadataBody b with
        | .error e => (.error e, [.metadataGet (some ctx) url])
        | .ok metadata => (.ok metadata, [.metadataGet (some ctx) url])

/-- `Client.UpdateTaskProtection` of src/unnamed/part_003 (value-returning
mode): uses `input.Metadata` when supplied, else resolves it via
`Client.GetTaskArn` under the same context; then calls the ECS
`UpdateTaskProtection` API — dereferencing the metadata pointer, which
panics when it is nil — and directly returns the raw ECS result. -/
def Client.UpdateTaskProtection (w : World) (c : Client) (ctx : Ctx)
    (input : Client.UpdateTaskProtectionInput) :
    Outcome ECS.UpdateTaskProtectionOutput × List Event :=
  let resolved : Except GoError (Option MetadataBody) × List Event :=
    match input.Metadata with
    | none => Client.GetTaskArn w c ctx
    | some m => (.ok (some m), [])
  match resolved with
  | (.error e, tr) => (.err e, tr)
  | (.ok none, tr) => (.panicked nilDerefMsg, tr)
  | (.ok (some metadata), tr) =>
    let req : ECS.UpdateTaskProtectionInput :=
      { Cluster := some metadata.Cluster
        Tasks := [metadata.TaskARN]
        ProtectionEnabled := input.Protect
        ExpiresInMinutes := input.ExpiresInMinutes }
    let tr := tr ++ [.ecsUpdate ctx req]
    match c.ecsClient ctx req with
    | .error e => (.err e, tr)
    | .ok output => (.ok output, tr)

/-- An ECS client capability returning a fixed output, like the
`SuccessfulTestClient` / `FailureTestClient` test doubles of the repo. -/
def constClient (output : ECS.UpdateTaskProtectionOutput) : ECSClient :=
  fun _ _ => .ok output

/-- A world whose environment names a metadata endpoint and whose transport
serves the JSON object with the given Cluster and TaskARN values at every
URL, with status 200. -/
def metadataWorld (c t : String) : World :=
  { env := some "http://169.254.170.2/v4/abc"
    http := fun _ _ =>
      .ok ⟨200, .ok (some (.obj [("Cluster", Json.str c), ("TaskARN", Json.str t)]))⟩ }

/-- A world whose transport serves the JSON literal `null` at every URL. -/
def nullBodyWorld : World :=
  { env := some "http://meta"
    http := fun _ _ => .ok ⟨200, .ok (some Json.null)⟩ }

/-- A world whose transport answers every URL with HTTP status 404 but a
body that is a valid metadata JSON object. -/
def notFoundWorld : World :=
  { env := some "http://meta"
    http := fun _ _ =>
      .ok ⟨404, .ok (some (.obj [("Cluster", Json.str "c1"), ("TaskARN", Json.str "t1")]))⟩ }

/-- Like `notFoundWorld` but with HTTP status 200 and the same body. -/
def okStatusWorld : World :=
  { env := some "http://meta"
    http := fun _ _ =>
      .ok ⟨200, .ok (some (.obj [("Cluster", Json.str "c1"), ("TaskARN", Json.str "t1")]))⟩ }

/-- A world whose transport fails every exchange with a connection error. -/
def transportErrWorld : World :=
  { env := some "http://meta"
    http := fun _ _ => .error "connection refused" }

/-- A world with `ECS_CONTAINER_METADATA_URI_V4` unset. -/
def noEnvWorld : World :=
  { env := none
    http := fun _ _ => .error "unreachable" }

/-- The event was issued under the caller context `c` (v2 discipline: the
metadata GET carries the caller context, and so does the ECS call). -/
def Event.underCtx (c : Ctx) : Event → Prop
  | .metadataGet oc _ => oc = some c
  | .ecsUpdate c2 _ => c2 = c

/-- The v1 context discipline: the ECS call carries the caller context, but
a metadata GET carries no caller-supplied context at all. -/
def Event.v1Ctx (c : Ctx) : Event → Prop
  | .metadataGet oc _ => oc = none
  | .ecsUpdate c2 _ => c2 = c

/-!  Theorems.  Each claim C1..C10 of the specification is settled below;
helper lemmas about traces precede the claims that use them.  -/

/-- Helper: every network event recorded by `Client.GetTaskArn` is issued
under the caller context. -/
theorem client_getTaskArn_trace_ctx (w : World) (cl : Client) (ctx : Ctx) :
    ∀ ev ∈ (Client.GetTaskArn w cl ctx).2, Event.underCtx ctx ev := by
  intro ev hev
  unfold Client.GetTaskArn at hev
  dsimp only at hev
  split at hev
  · simp at hev
  · split at hev
    · simp only [List.mem_singleton] at hev
      subst hev; rfl
    · split at hev
      · simp only [List.mem_singleton] at hev
        subst hev; rfl
      · split at hev
        · simp only [List.mem_singleton] at hev
          subst hev; rfl
        · simp only [List.mem_singleton] at hev
          subst hev; rfl

/-- Helper: every network event recorded by the v1 `GetTaskArn` follows the
v1 context discipline: its one possible metadata GET carries no
caller-supplied context. -/
theorem v1_getTaskArn_trace_ctx (w : World) (c : Ctx) :
    ∀ ev ∈ (V1.GetTaskArn w).2, Event.v1Ctx c ev := by
  intro ev hev
  unfold V1.GetTaskArn at hev
  dsimp only at hev
  split at hev
  · simp at hev
  · split at hev
    · simp only [List.mem_singleton] at hev
      subst hev; rfl
    · split at hev
      · simp only [List.mem_singleton] at hev
        subst hev; rfl
      · split at hev
        · simp only [List.mem_singleton] at hev
          subst hev; rfl
        · simp only [List.mem_singleton] at hev
          subst hev; rfl

/-- A remote output with one failure carrying reason "boom". -/
def failBoomOutput : ECS.UpdateTaskProtectionOutput :=
  { ProtectedTasks := [], Failures := [{ Arn := none, Reason := some "boom" }] }

/-- A raw remote output holding both a protected task and a failure. -/
def rawOut : ECS.UpdateTaskProtectionOutput :=
  { ProtectedTasks := [{ TaskArn := some "test", ProtectionEnabled := true }]
    Failures := [{ Arn := some "test", Reason := some "failed" }] }

/-- C1: in imperative mode (v1 `UpdateTaskProtection`), once identity
resolution and the remote call both succeed with remote result `output`
(whose failures all carry a reason), the call returns an error exactly when
the failures list is non-empty and the intent was to protect; with
non-empty failures but `Protect = false` it succeeds, and with empty
failures it succeeds with no return value. -/
theorem v1_error_iff_failures_and_protect
    (w : World) (m : MetadataBody) (tr : List Event)
    (output : ECS.UpdateTaskProtectionOutput) (p : Bool) (e : Option Int) (ctx : Ctx)
    (hmeta : V1.GetTaskArn w = (.ok (some m), tr))
    (hreason : ∀ f ∈ output.Failures, f.Reason ≠ none) :
    ((V1.UpdateTaskProtection w ⟨ctx, constClient output, p, e⟩).1.isErr = true
      ↔ output.Failures ≠ [] ∧ p = true)
    ∧ (output.Failures ≠ [] → p = false →
        (V1.UpdateTaskProtection w ⟨ctx, constClient output, p, e⟩).1 = .ok ())
    ∧ (output.Failures = [] →
        (V1.UpdateTaskProtection w ⟨ctx, constClient output, p, e⟩).1 = .ok ()) := by
  unfold V1.UpdateTaskProtection
  rw [hmeta]
  cases hf : output.Failures with
  | nil => cases p <;> simp [constClient, hf, Outcome.isErr]
  | cons f rest =>
    cases p with
    | false => simp [constClient, hf, Outcome.isErr]
    | true =>
      have hfr : f.Reason ≠ none := hreason f (by rw [hf]; exact List.mem_cons_self f rest)
      cases hr : f.Reason with
      | none => exact absurd hr hfr
      | some r => simp [constClient, hf, hr, Outcome.isErr]

/-- C1 witness: with metadata served and a remote result holding one
failure with reason "boom", enabling protection yields an error, and the
vacuous success branches hold. -/
theorem v1_error_iff_failures_and_protect_witness :
    ((V1.UpdateTaskProtection (metadataWorld "c" "t")
        ⟨0, constClient failBoomOutput, true, some 60⟩).1.isErr = true
      ↔ failBoomOutput.Failures ≠ [] ∧ true = true)
    ∧ (failBoomOutput.Failures ≠ [] → true = false →
        (V1.UpdateTaskProtection (metadataWorld "c" "t")
          ⟨0, constClient failBoomOutput, true, some 60⟩).1 = .ok ())
    ∧ (failBoomOutput.Failures = [] →
        (V1.UpdateTaskProtection (metadataWorld "c" "t")
          ⟨0, constClient failBoomOutput, true, some 60⟩).1 = .ok ()) :=
  v1_error_iff_failures_and_protect (metadataWorld "c" "t") ⟨"c", "t"⟩
    [.metadataGet none ("http://169.254.170.2/v4/abc" ++ "/task")]
    failBoomOutput true (some 60) 0 rfl (by decide)

/-- C2: in imperative mode, with `Protect = true` and a remote result whose
first failure carries reason `X` (later failures arbitrary), the call fails
with message exactly the fixed prefix "failed to protect task: " followed
by `X`. -/
theorem v1_protect_failure_message
    (w : World) (m : MetadataBody) (tr : List Event) (ctx : Ctx)
    (pts : List ECS.ProtectedTask) (arn : Option String) (X : String)
    (rest : List ECS.Failure) (e : Option Int)
    (hmeta : V1.GetTaskArn w = (.ok (some m), tr)) :
    (V1.UpdateTaskProtection w
      ⟨ctx, constClient ⟨pts, ⟨arn, some X⟩ :: rest⟩, true, e⟩).1
      = .err ("failed to protect task: " ++ X) := by
  unfold V1.UpdateTaskProtection
  rw [hmeta]
  simp [constClient]

/-- C2 witness: with failures `[{reason: "X"}, {reason: "Y"}]` the error
message is exactly "failed to protect task: X" — the first reason, not the
later one. -/
theorem v1_protect_failure_message_witness :
    (V1.UpdateTaskProtection (metadataWorld "c" "t")
      ⟨1, constClient ⟨[], ⟨some "arn1", some "X"⟩ :: [⟨some "arn2", some "Y"⟩]⟩,
        true, none⟩).1
      = .err ("failed to protect task: " ++ "X") :=
  v1_protect_failure_message (metadataWorld "c" "t") ⟨"c", "t"⟩
    [.metadataGet none ("http://169.254.170.2/v4/abc" ++ "/task")] 1 []
    (some "arn1") "X" [⟨some "arn2", some "Y"⟩] none rfl

/-- C3: with an identity supplied in the intent, the coordinator issues
exactly one remote request — cluster `c`, task list exactly `[t]`, the
protection flag and expiry passed through unmodified (any `Option` expiry,
with no range validation) — and in value-returning mode the raw remote
result is returned unchanged, even when it contains failures. -/
theorem client_single_request_and_raw_result
    (w : World) (ecsf : ECSClient) (mo : String) (ctx : Ctx)
    (c t : String) (p : Bool) (e : Option Int)
    (out : ECS.UpdateTaskProtectionOutput)
    (hecs : ecsf ctx ⟨some c, [t], p, e⟩ = .ok out) :
    Client.UpdateTaskProtection w ⟨ecsf, mo⟩ ctx ⟨some ⟨c, t⟩, p, e⟩
      = (.ok out, [.ecsUpdate ctx ⟨some c, [t], p, e⟩]) := by
  unfold Client.UpdateTaskProtection
  dsimp only
  rw [hecs]
  rfl

/-- C3 witness: a failure-containing raw result is returned unchanged, and
the out-of-range expiry 100000 is forwarded unvalidated in the single
remote request. -/
theorem client_single_request_and_raw_result_witness :
    Client.UpdateTaskProtection noEnvWorld ⟨constClient rawOut, ""⟩ 4
        ⟨some ⟨"test-cluster", "arn:task"⟩, false, some 100000⟩
      = (.ok rawOut,
         [.ecsUpdate 4 ⟨some "test-cluster", ["arn:task"], false, some 100000⟩]) :=
  client_single_request_and_raw_result noEnvWorld (constClient rawOut) "" 4
    "test-cluster" "arn:task" false (some 100000) rawOut rfl

/-- C4: round trip — whenever the metadata endpoint serves a valid JSON
object with string values `c` and `t` under keys Cluster and TaskARN
(any HTTP status), `Client.GetTaskArn` returns exactly `MetadataBody c t`,
with no further validation. -/
theorem getTaskArn_roundtrip
    (w : World) (ecsf : ECSClient) (mo : String) (ctx : Ctx)
    (c t : String) (status : Nat)
    (hmo : mo ≠ "")
    (hserve : w.http (some ctx) (mo ++ "/task")
      = .ok ⟨status, .ok (some (.obj [("Cluster", .str c), ("TaskARN", .str t)]))⟩) :
    Client.GetTaskArn w ⟨ecsf, mo⟩ ctx
      = (.ok (some ⟨c, t⟩), [.metadataGet (some ctx) (mo ++ "/task")]) := by
  unfold Client.GetTaskArn
  simp only [if_neg hmo]
  rw [hserve]
  rfl

/-- C4 witness: empty strings for both fields are accepted and propagated,
never rejected. -/
theorem getTaskArn_roundtrip_witness :
    Client.GetTaskArn (metadataWorld "" "") ⟨constClient ⟨[], []⟩, "http://o"⟩ 3
      = (.ok (some ⟨"", ""⟩), [.metadataGet (some 3) ("http://o" ++ "/task")]) :=
  getTaskArn_roundtrip (metadataWorld "" "") (constClient ⟨[], []⟩) "http://o" 3
    "" "" 200 (by decide) rfl

/-- C5: with no endpoint override and `ECS_CONTAINER_METADATA_URI_V4`
unset, both versions of `GetTaskArn` fail with the configuration error
whose message contains "can't get Metadata URI", and the recorded network
trace is empty — no HTTP request is issued. -/
theorem getTaskArn_missing_env
    (w : World) (ecsf : ECSClient) (ctx : Ctx)
    (henv : w.env = none) :
    Client.GetTaskArn w ⟨ecsf, ""⟩ ctx
      = (.error ("unable to retrieve Task ARN - " ++ "can't get Metadata URI"), [])
    ∧ V1.GetTaskArn w
      = (.error ("unable to retrieve Task ARN - " ++ "can't get Metadata URI"), []) := by
  constructor
  · unfold Client.GetTaskArn
    rw [henv]
    rfl
  · unfold V1.GetTaskArn
    rw [henv]
    rfl

/-- C5 witness: in a world with the environment variable unset, both
versions fail with the configuration error and an empty trace. -/
theorem getTaskArn_missing_env_witness :
    Client.GetTaskArn noEnvWorld ⟨constClient ⟨[], []⟩, ""⟩ 9
      = (.error ("unable to retrieve Task ARN - " ++ "can't get Metadata URI"), [])
    ∧ V1.GetTaskArn noEnvWorld
      = (.error ("unable to retrieve Task ARN - " ++ "can't get Metadata URI"), []) :=
  getTaskArn_missing_env noEnvWorld (constClient ⟨[], []⟩) 9 rfl

/-- C6 counterexample: an HTTP exchange that completes with the non-success
status 404 and a parseable body does NOT make `GetTaskArn` fail — the body
is decoded as identity data and the call succeeds, refuting the claim that
a non-success transport status surfaces as an error before decoding. -/
theorem getTaskArn_nonsuccess_status_decoded :
    notFoundWorld.http (some 0) ("http://o" ++ "/task")
      = .ok ⟨404, .ok (some (.obj [("Cluster", Json.str "c1"), ("TaskARN", Json.str "t1")]))⟩
    ∧ (Client.GetTaskArn notFoundWorld ⟨constClient ⟨[], []⟩, "http://o"⟩ 0).1
      = .ok (some ⟨"c1", "t1"⟩) :=
  ⟨rfl, rfl⟩

/-- C6 amended: only a failure of the HTTP exchange itself (the transport
call returning an error) surfaces as the resolution error, wrapping the
underlying cause; the HTTP status code is never inspected — two worlds
whose responses have the same body but different status codes give
identical results, so a non-success response body is still decoded. -/
theorem getTaskArn_status_never_inspected
    (w1 w2 w3 : World) (ecsf : ECSClient) (mo : String) (ctx : Ctx)
    (e : GoError) (s2 s3 : Nat) (b : Except GoError (Option Json))
    (hmo : mo ≠ "")
    (h1 : w1.http (some ctx) (mo ++ "/task") = .error e)
    (h2 : w2.http (some ctx) (mo ++ "/task") = .ok ⟨s2, b⟩)
    (h3 : w3.http (some ctx) (mo ++ "/task") = .ok ⟨s3, b⟩) :
    Client.GetTaskArn w1 ⟨ecsf, mo⟩ ctx
      = (.error e, [.metadataGet (some ctx) (mo ++ "/task")])
    ∧ Client.GetTaskArn w2 ⟨ecsf, mo⟩ ctx = Client.GetTaskArn w3 ⟨ecsf, mo⟩ ctx := by
  constructor
  · unfold Client.GetTaskArn
    simp only [if_neg hmo]
    rw [h1]
  · unfold Client.GetTaskArn
    simp only [if_neg hmo]
    rw [h2, h3]

/-- C6 amended witness: a transport failure propagates as the error, and a
404 response is handled identically to a 200 response with the same body. -/
theorem getTaskArn_status_never_inspected_witness :
    Client.GetTaskArn transportErrWorld ⟨constClient ⟨[], []⟩, "http://o"⟩ 0
      = (.error "connection refused", [.metadataGet (some 0) ("http://o" ++ "/task")])
    ∧ Client.GetTaskArn notFoundWorld ⟨constClient ⟨[], []⟩, "http://o"⟩ 0
      = Client.GetTaskArn okStatusWorld ⟨constClient ⟨[], []⟩, "http://o"⟩ 0 :=
  getTaskArn_status_never_inspected transportErrWorld notFoundWorld okStatusWorld
    (constClient ⟨[], []⟩) "http://o" 0 "connection refused" 404 200
    (.ok (some (.obj [("Cluster", Json.str "c1"), ("TaskARN", Json.str "t1")])))
    (by decide) rfl rfl rfl

/-- C7: when the intent supplies metadata directly, the identity resolver
is never invoked — the whole network trace is exactly the one remote ECS
request, built from the supplied identity as-is, and contains no metadata
GET. -/
theorem client_supplied_metadata_skips_resolver
    (w : World) (ecsf : ECSClient) (mo : String) (ctx : Ctx)
    (m : MetadataBody) (p : Bool) (e : Option Int) :
    (Client.UpdateTaskProtection w ⟨ecsf, mo⟩ ctx ⟨some m, p, e⟩).2
      = [.ecsUpdate ctx ⟨some m.Cluster, [m.TaskARN], p, e⟩] := by
  unfold Client.UpdateTaskProtection
  cases h : ecsf ctx ⟨some m.Cluster, [m.TaskARN], p, e⟩ <;> simp [h]

/-- C8 counterexample: an imperative-mode (v1) invocation with caller
context 7: the recorded metadata GET carries no caller context at all
(`none`), and no metadata GET under context 7 occurs in the trace — the
caller-supplied cancellation signal is not propagated into the metadata
HTTP request, refuting the claim for the imperative entry point. -/
theorem v1_metadata_get_lacks_caller_ctx :
    (V1.UpdateTaskProtection (metadataWorld "c" "t")
        ⟨7, constClient ⟨[], []⟩, true, none⟩).2
      = [.metadataGet none ("http://169.254.170.2/v4/abc" ++ "/task"),
         .ecsUpdate 7 ⟨some "c", ["t"], true, none⟩]
    ∧ Event.metadataGet (some 7) ("http://169.254.170.2/v4/abc" ++ "/task")
        ∉ (V1.UpdateTaskProtection (metadataWorld "c" "t")
            ⟨7, constClient ⟨[], []⟩, true, none⟩).2 :=
  ⟨rfl, by decide⟩

/-- C8 amended: in the Client-based (v2) entry point every recorded network
operation — metadata GET and remote ECS call — is issued under the caller
context; in the imperative (v1) entry point only the remote ECS call is
issued under the caller context, while the metadata GET is issued with no
caller-supplied signal at all. -/
theorem ctx_propagation_by_version (w : World) (cl : Client) (ctx : Ctx)
    (input : Client.UpdateTaskProtectionInput) (input1 : V1.UpdateTaskProtectionInput) :
    (∀ ev ∈ (Client.UpdateTaskProtection w cl ctx input).2, Event.underCtx ctx ev)
    ∧ (∀ ev ∈ (V1.UpdateTaskProtection w input1).2, Event.v1Ctx input1.Context ev) := by
  constructor
  · intro ev hev
    have hga := client_getTaskArn_trace_ctx w cl ctx
    unfold Client.UpdateTaskProtection at hev
    dsimp only at hev
    cases hm : input.Metadata with
    | none =>
      rw [hm] at hev
      rcases hg : Client.GetTaskArn w cl ctx with ⟨r, tr⟩
      rw [hg] at hev hga
      dsimp only at hev hga
      match r, hev with
      | .error e, hev => exact hga ev hev
      | .ok none, hev => exact hga ev hev
      | .ok (some m), hev =>
        dsimp only at hev
        cases he : cl.ecsClient ctx
            ⟨some m.Cluster, [m.TaskARN], input.Protect, input.ExpiresInMinutes⟩ with
        | error er =>
          rw [he] at hev
          rcases List.mem_append.1 hev with h | h
          · exact hga ev h
          · simp only [List.mem_singleton] at h
            subst h; rfl
        | ok o =>
          rw [he] at hev
          rcases List.mem_append.1 hev with h | h
          · exact hga ev h
          · simp only [List.mem_singleton] at h
            subst h; rfl
    | some m =>
      rw [hm] at hev
      dsimp only at hev
      cases he : cl.ecsClient ctx
          ⟨some m.Cluster, [m.TaskARN], input.Protect, input.ExpiresInMinutes⟩ with
      | error er =>
        rw [he] at hev
        simp only [List.nil_append, List.mem_singleton] at hev
        subst hev; rfl
      | ok o =>
        rw [he] at hev
        simp only [List.nil_append, List.mem_singleton] at hev
        subst hev; rfl
  · intro ev hev
    have hga := v1_getTaskArn_trace_ctx w input1.Context
    unfold V1.UpdateTaskProtection at hev
    rcases hg : V1.GetTaskArn w with ⟨r, tr⟩
    rw [hg] at hev hga
    dsimp only at hev hga
    match r, hev with
    | .error e, hev => exact hga ev hev
    | .ok none, hev => exact hga ev hev
    | .ok (some m), hev =>
      dsimp only at hev
      cases he : input1.Client input1.Context
          ⟨some m.Cluster, [m.TaskARN], input1.Protect, input1.ExpiresInMinutes⟩ with
      | error er =>
        rw [he] at hev
        rcases List.mem_append.1 hev with h | h
        · exact hga ev h
        · simp only [List.mem_singleton] at h
          subst h; rfl
      | ok o =>
        rw [he] at hev
        dsimp only at hev
        revert hev
        rcases o.Failures with _ | ⟨f, rest⟩ <;>
          cases input1.Protect
        all_goals
          intro hev
          dsimp only at hev
          try split at hev
          all_goals
            try dsimp only at hev
            rcases List.mem_append.1 hev with h | h
            · exact hga ev h
            · simp only [List.mem_singleton] at h
              subst h
              rfl

/-- C8 amended witness: a v2 run under context 5 recorded its ECS call
under context 5; a v1 run with caller context 7 recorded its metadata GET
with no context. -/
theorem ctx_propagation_by_version_witness :
    Event.underCtx 5 (Event.ecsUpdate 5 ⟨some "c", ["t"], true, none⟩)
    ∧ Event.v1Ctx 7
        (Event.metadataGet none ("http://169.254.170.2/v4/abc" ++ "/task")) :=
  ⟨(ctx_propagation_by_version (metadataWorld "c" "t") ⟨constClient ⟨[], []⟩, ""⟩ 5
      ⟨some ⟨"c", "t"⟩, true, none⟩ ⟨7, constClient ⟨[], []⟩, true, none⟩).1
      (Event.ecsUpdate 5 ⟨some "c", ["t"], true, none⟩) (by decide),
   (ctx_propagation_by_version (metadataWorld "c" "t") ⟨constClient ⟨[], []⟩, ""⟩ 5
      ⟨some ⟨"c", "t"⟩, true, none⟩ ⟨7, constClient ⟨[], []⟩, true, none⟩).2
      (Event.metadataGet none ("http://169.254.170.2/v4/abc" ++ "/task")) (by decide)⟩

/-- C9: when the metadata endpoint serves the JSON literal null,
`Client.GetTaskArn` succeeds while returning no identity (nil metadata, nil
error), and a `Client.UpdateTaskProtection` call that resolves identity
this way dereferences the nil metadata pointer and panics instead of
failing cleanly. -/
theorem null_metadata_then_nil_deref
    (w : World) (ecsf : ECSClient) (mo : String) (ctx : Ctx)
    (p : Bool) (e : Option Int) (status : Nat)
    (hmo : mo ≠ "")
    (hserve : w.http (some ctx) (mo ++ "/task") = .ok ⟨status, .ok (some .null)⟩) :
    (Client.GetTaskArn w ⟨ecsf, mo⟩ ctx).1 = .ok none
    ∧ (Client.UpdateTaskProtection w ⟨ecsf, mo⟩ ctx ⟨none, p, e⟩).1
      = .panicked nilDerefMsg := by
  have hga : Client.GetTaskArn w ⟨ecsf, mo⟩ ctx
      = (.ok none, [.metadataGet (some ctx) (mo ++ "/task")]) := by
    unfold Client.GetTaskArn
    simp only [if_neg hmo]
    rw [hserve]
    rfl
  refine ⟨by rw [hga], ?_⟩
  unfold Client.UpdateTaskProtection
  rw [hga]

/-- C9 witness: a world serving the body null makes `GetTaskArn` succeed
with no identity and `UpdateTaskProtection` crash with the nil-pointer
panic. -/
theorem null_metadata_then_nil_deref_witness :
    (Client.GetTaskArn nullBodyWorld ⟨constClient ⟨[], []⟩, "http://o"⟩ 2).1 = .ok none
    ∧ (Client.UpdateTaskProtection nullBodyWorld ⟨constClient ⟨[], []⟩, "http://o"⟩ 2
        ⟨none, true, none⟩).1 = .panicked nilDerefMsg :=
  null_metadata_then_nil_deref nullBodyWorld (constClient ⟨[], []⟩) "http://o" 2
    true none 200 (by decide) rfl

/-- C10: in imperative mode with `Protect = true` and non-empty failures,
the error construction dereferences the first failure reason with no
presence check: when the first failure carries no reason the call panics
with the nil-pointer dereference instead of returning an error, and only
when a reason is present does it return the `ProtectionFailedError`. -/
theorem v1_first_failure_reason_deref
    (w : World) (m : MetadataBody) (tr : List Event) (ctx : Ctx)
    (pts : List ECS.ProtectedTask) (arn : Option String) (r : String)
    (rest : List ECS.Failure) (e : Option Int)
    (hmeta : V1.GetTaskArn w = (.ok (some m), tr)) :
    (V1.UpdateTaskProtection w
      ⟨ctx, constClient ⟨pts, ⟨arn, none⟩ :: rest⟩, true, e⟩).1
      = .panicked nilDerefMsg
    ∧ (V1.UpdateTaskProtection w
      ⟨ctx, constClient ⟨pts, ⟨arn, some r⟩ :: rest⟩, true, e⟩).1
      = .err ("failed to protect task: " ++ r) := by
  unfold V1.UpdateTaskProtection
  rw [hmeta]
  simp [constClient]

/-- C10 witness: a first failure with an absent reason crashes the enable
path; with a present reason it returns the error. -/
theorem v1_first_failure_reason_deref_witness :
    (V1.UpdateTaskProtection (metadataWorld "c" "t")
        ⟨3, constClient ⟨[], ⟨some "a1", none⟩ :: []⟩, true, none⟩).1
      = .panicked nilDerefMsg
    ∧ (V1.UpdateTaskProtection (metadataWorld "c" "t")
        ⟨3, constClient ⟨[], ⟨some "a1", some "r1"⟩ :: []⟩, true, none⟩).1
      = .err ("failed to protect task: " ++ "r1") :=
  v1_first_failure_reason_deref (metadataWorld "c" "t") ⟨"c", "t"⟩
    [.metadataGet none ("http://169.254.170.2/v4/abc" ++ "/task")] 3 []
    (some "a1") "r1" [] none rfl

end Ecstp
